import Mathlib

/-!
Verification of the polymorphic entity-linking mechanism of the Digilearn
backend (Express + PostgreSQL).  The relational state reached through
`src/db.js` is embedded as explicit lists of rows, and each Express route
handler of `src/routes/news.js` and of the posts router (`src/unnamed/part_000`)
is embedded as a pure function from a database state and request data to an
HTTP status together with the successor state.  SQL statements are translated
one-for-one: `SELECT ... WHERE` becomes `List.find?` / `List.filter`,
`UPDATE ... WHERE` becomes `List.map` guarded on the key, `INSERT` appends,
`DELETE ... WHERE` filters, and the `ON DELETE CASCADE` clauses of
`posts_entities` / `news_entities` (db.js lines 134-141 and 169-176) are part
of the effect of deleting an owner row.
-/

namespace Digilearn

/-- A row of the `news` table (db.js lines 156-166). -/
structure NewsRow where
  id : Nat
  title : String
  content : String
  imageUrl : Option String
  createdBy : Nat
deriving Repr, DecidableEq

/-- A row of the `posts` table (db.js lines 122-131). -/
structure PostRow where
  id : Nat
  userId : Nat
  content : String
  imageUrl : Option String
deriving Repr, DecidableEq

/-- A row of a link table, `news_entities` (db.js lines 169-176) or
`posts_entities` (db.js lines 134-141): owner id, entity kind, entity id. -/
structure LinkRow where
  ownerId : Nat
  entityType : String
  entityId : Nat
deriving Repr, DecidableEq

/-- The authenticated requester, as resolved by the auth middleware:
`req.user.id` and `req.user.role`. -/
structure Actor where
  id : Nat
  role : String
deriving Repr, DecidableEq

/-- The database state relevant to the linking mechanism.  The `classes`,
`modules` and `assignments` tables only ever answer
`SELECT id FROM ... WHERE id = $1` here, so they are kept as lists of ids.
`newsNextId` / `postsNextId` model the SERIAL sequences. -/
structure DB where
  classes : List Nat
  modules : List Nat
  assignments : List Nat
  news : List NewsRow
  posts : List PostRow
  newsEntities : List LinkRow
  postsEntities : List LinkRow
  newsNextId : Nat
  postsNextId : Nat
deriving Repr, DecidableEq

/-- Result of one request: HTTP status code and successor database state. -/
structure HRes where
  status : Nat
  db : DB
deriving Repr, DecidableEq

/-- `['class', 'module', 'assignment'].includes(t)` — the closed set of
linkable entity kinds (news.js line 134 and elsewhere). -/
def validEntityType (t : String) : Bool :=
  ["class", "module", "assignment"].contains t

/-- The `switch (entityType)` existence check (news.js lines 139-153):
`SELECT id FROM classes/modules/assignments WHERE id = $1`.  A kind outside
the switch leaves `entityExists = false`. -/
def entityExists (db : DB) (t : String) (eid : Nat) : Bool :=
  if t == "class" then db.classes.contains eid
  else if t == "module" then db.modules.contains eid
  else if t == "assignment" then db.assignments.contains eid
  else false

/-- JavaScript truthiness of an optional body field: absent (`undefined`) and
the empty string are falsy; multer body fields are strings. -/
def truthyS : Option String → Bool
  | none => false
  | some s => !(s == "")

/-- The news mutation guard (news.js lines 375, 129, 198, 486):
`created_by === req.user.id || req.user.role === 'aslab'`; the route
returns 403 exactly when this is false. -/
def canMutateNews (actor : Actor) (n : NewsRow) : Bool :=
  n.createdBy == actor.id || actor.role == "aslab"

/-- The posts mutation guard (part_000 lines 380, 493, 562, 589):
`user_id === req.user.id` — the creator only, with no role bypass. -/
def canMutatePost (actor : Actor) (p : PostRow) : Bool :=
  p.userId == actor.id

/-- `SELECT * FROM news_entities WHERE news_id = $1` returned rows
(news.js lines 160-163). -/
def hasLink (l : List LinkRow) (id : Nat) : Bool :=
  l.any (fun r => r.ownerId == id)

/-- `UPDATE news_entities SET entity_type = $1, entity_id = $2
WHERE news_id = $3` (news.js lines 167-170). -/
def setRows (l : List LinkRow) (id : Nat) (t : String) (eid : Nat) :
    List LinkRow :=
  l.map (fun r =>
    if r.ownerId == id then { r with entityType := t, entityId := eid } else r)

/-- The check-then-update-or-insert sequence shared verbatim by the news and
posts link code paths (news.js lines 159-177, part_000 lines 523-541):
update in place when a row for the owner exists, else insert. -/
def upsertLink (l : List LinkRow) (id : Nat) (t : String) (eid : Nat) :
    List LinkRow :=
  if hasLink l id then setRows l id t eid else l ++ [⟨id, t, eid⟩]

/-- `DELETE FROM news_entities WHERE news_id = $1` (news.js line 203). -/
def dropLink (l : List LinkRow) (id : Nat) : List LinkRow :=
  l.filter (fun r => !(r.ownerId == id))

/-- The link lookup for one owner: kind and id of its link row, if any. -/
def getLink (l : List LinkRow) (id : Nat) : Option (String × Nat) :=
  (l.find? (fun r => r.ownerId == id)).map (fun r => (r.entityType, r.entityId))

/-- `POST /news/:id/link/:entityType/:entityId` (news.js lines 118-184):
news exists → creator-or-aslab → kind valid → target exists → upsert. -/
def newsLinkHandler (db : DB) (actor : Actor) (id : Nat) (t : String)
    (eid : Nat) : HRes :=
  match db.news.find? (fun n => n.id == id) with
  | none => ⟨404, db⟩
  | some n =>
    if !canMutateNews actor n then ⟨403, db⟩
    else if !validEntityType t then ⟨400, db⟩
    else if !entityExists db t eid then ⟨404, db⟩
    else ⟨200, { db with newsEntities := upsertLink db.newsEntities id t eid }⟩

/-- `DELETE /news/:id/unlink` (news.js lines 187-210). -/
def newsUnlinkHandler (db : DB) (actor : Actor) (id : Nat) : HRes :=
  match db.news.find? (fun n => n.id == id) with
  | none => ⟨404, db⟩
  | some n =>
    if !canMutateNews actor n then ⟨403, db⟩
    else ⟨200, { db with newsEntities := dropLink db.newsEntities id }⟩

/-- `POST /news` (news.js lines 239-351).  `f1`, `f2`, `fc` are failure
oracles for the three statements inside the transaction (INSERT news,
INSERT news_entities, COMMIT); on any failure the handler runs ROLLBACK, so
the pre-transaction state is the result (news.js lines 341-346). -/
def newsCreateHandler (db : DB) (actor : Actor)
    (title content lt : Option String) (li : Option Nat) (img : Option String)
    (f1 f2 fc : Bool) : HRes :=
  if !(truthyS title && truthyS content) then ⟨400, db⟩
  else if truthyS lt && !validEntityType (lt.getD "") then ⟨400, db⟩
  else if truthyS lt && li.isSome
          && !entityExists db (lt.getD "") (li.getD 0) then ⟨404, db⟩
  else if f1 then ⟨500, db⟩
  else
    let nid := db.newsNextId
    let db1 : DB := { db with
      news := db.news ++ [⟨nid, title.getD "", content.getD "", img, actor.id⟩]
      newsNextId := nid + 1 }
    if truthyS lt && li.isSome then
      if f2 then ⟨500, db⟩
      else if fc then ⟨500, db⟩
      else ⟨201, { db1 with
        newsEntities := db1.newsEntities ++ [⟨nid, lt.getD "", li.getD 0⟩] }⟩
    else if fc then ⟨500, db⟩
    else ⟨201, db1⟩

/-- The fully committed state of `POST /news`: primary record inserted and,
when a target was supplied, its link row inserted with it. -/
def newsCreateCommit (db : DB) (actor : Actor)
    (title content lt : Option String) (li : Option Nat)
    (img : Option String) : DB :=
  let nid := db.newsNextId
  let db1 : DB := { db with
    news := db.news ++ [⟨nid, title.getD "", content.getD "", img, actor.id⟩]
    newsNextId := nid + 1 }
  if truthyS lt && li.isSome then
    { db1 with newsEntities := db1.newsEntities ++ [⟨nid, lt.getD "", li.getD 0⟩] }
  else db1

/-- `UPDATE news SET title = $1, content = $2, image_url = $3, ...
WHERE id = $4` (news.js lines 414-417). -/
def setNewsFields (l : List NewsRow) (id : Nat) (tt cc : String)
    (im : Option String) : List NewsRow :=
  l.map (fun m =>
    if m.id == id then { m with title := tt, content := cc, imageUrl := im }
    else m)

/-- `UPDATE posts SET content = $1, image_url = $2, ... WHERE id = $3`
(part_000 lines 419-422). -/
def setPostFields (l : List PostRow) (id : Nat) (cc : String)
    (im : Option String) : List PostRow :=
  l.map (fun q =>
    if q.id == id then { q with content := cc, imageUrl := im } else q)

/-- `PUT /news/:id` (news.js lines 354-474): field validation, kind
validation, existence, creator-or-aslab, target existence, then one
transaction updating the news row and either upserting the link row
(target supplied) or deleting it (news.js lines 420-443). -/
def newsUpdateHandler (db : DB) (actor : Actor) (id : Nat)
    (title content lt : Option String) (li : Option Nat)
    (img : Option String) : HRes :=
  if !(truthyS title && truthyS content) then ⟨400, db⟩
  else if truthyS lt && !validEntityType (lt.getD "") then ⟨400, db⟩
  else
    match db.news.find? (fun n => n.id == id) with
    | none => ⟨404, db⟩
    | some n =>
      if !canMutateNews actor n then ⟨403, db⟩
      else if truthyS lt && li.isSome
              && !entityExists db (lt.getD "") (li.getD 0) then ⟨404, db⟩
      else
        let newImg := match img with | some u => some u | none => n.imageUrl
        let news' := setNewsFields db.news id (title.getD "") (content.getD "")
          newImg
        let links' :=
          if truthyS lt && li.isSome then
            upsertLink db.newsEntities id (lt.getD "") (li.getD 0)
          else dropLink db.newsEntities id
        ⟨200, { db with news := news', newsEntities := links' }⟩

/-- `DELETE /news/:id` (news.js lines 477-497).  The delete of the news row
cascades to `news_entities` through `ON DELETE CASCADE` (db.js line 171). -/
def newsDeleteHandler (db : DB) (actor : Actor) (id : Nat) : HRes :=
  match db.news.find? (fun n => n.id == id) with
  | none => ⟨404, db⟩
  | some n =>
    if !canMutateNews actor n then ⟨403, db⟩
    else ⟨200, { db with
      news := db.news.filter (fun m => !(m.id == id))
      newsEntities := dropLink db.newsEntities id }⟩

/-- `POST /posts/:id/link/:entityType/:entityId` (part_000 lines 482-548):
post exists → creator only → kind valid → target exists → upsert. -/
def postsLinkHandler (db : DB) (actor : Actor) (id : Nat) (t : String)
    (eid : Nat) : HRes :=
  match db.posts.find? (fun p => p.id == id) with
  | none => ⟨404, db⟩
  | some p =>
    if !canMutatePost actor p then ⟨403, db⟩
    else if !validEntityType t then ⟨400, db⟩
    else if !entityExists db t eid then ⟨404, db⟩
    else ⟨200, { db with postsEntities := upsertLink db.postsEntities id t eid }⟩

/-- `DELETE /posts/:id/unlink` (part_000 lines 551-574). -/
def postsUnlinkHandler (db : DB) (actor : Actor) (id : Nat) : HRes :=
  match db.posts.find? (fun p => p.id == id) with
  | none => ⟨404, db⟩
  | some p =>
    if !canMutatePost actor p then ⟨403, db⟩
    else ⟨200, { db with postsEntities := dropLink db.postsEntities id }⟩

/-- `POST /posts` (part_000 lines 240-353), with the same transaction
failure oracles as `newsCreateHandler`. -/
def postsCreateHandler (db : DB) (actor : Actor)
    (content et : Option String) (ei : Option Nat) (img : Option String)
    (f1 f2 fc : Bool) : HRes :=
  if !truthyS content then ⟨400, db⟩
  else if truthyS et && !validEntityType (et.getD "") then ⟨400, db⟩
  else if truthyS et && ei.isSome
          && !entityExists db (et.getD "") (ei.getD 0) then ⟨404, db⟩
  else if f1 then ⟨500, db⟩
  else
    let pid := db.postsNextId
    let db1 : DB := { db with
      posts := db.posts ++ [⟨pid, actor.id, content.getD "", img⟩]
      postsNextId := pid + 1 }
    if truthyS et && ei.isSome then
      if f2 then ⟨500, db⟩
      else if fc then ⟨500, db⟩
      else ⟨201, { db1 with
        postsEntities := db1.postsEntities ++ [⟨pid, et.getD "", ei.getD 0⟩] }⟩
    else if fc then ⟨500, db⟩
    else ⟨201, db1⟩

/-- The fully committed state of `POST /posts`. -/
def postsCreateCommit (db : DB) (actor : Actor) (content et : Option String)
    (ei : Option Nat) (img : Option String) : DB :=
  let pid := db.postsNextId
  let db1 : DB := { db with
    posts := db.posts ++ [⟨pid, actor.id, content.getD "", img⟩]
    postsNextId := pid + 1 }
  if truthyS et && ei.isSome then
    { db1 with postsEntities := db1.postsEntities ++ [⟨pid, et.getD "", ei.getD 0⟩] }
  else db1

/-- `PUT /posts/:id` (part_000 lines 356-479). -/
def postsUpdateHandler (db : DB) (actor : Actor) (id : Nat)
    (content et : Option String) (ei : Option Nat)
    (img : Option String) : HRes :=
  if !truthyS content then ⟨400, db⟩
  else if truthyS et && !validEntityType (et.getD "") then ⟨400, db⟩
  else
    match db.posts.find? (fun p => p.id == id) with
    | none => ⟨404, db⟩
    | some p =>
      if !canMutatePost actor p then ⟨403, db⟩
      else if truthyS et && ei.isSome
              && !entityExists db (et.getD "") (ei.getD 0) then ⟨404, db⟩
      else
        let newImg := match img with | some u => some u | none => p.imageUrl
        let posts' := setPostFields db.posts id (content.getD "") newImg
        let links' :=
          if truthyS et && ei.isSome then
            upsertLink db.postsEntities id (et.getD "") (ei.getD 0)
          else dropLink db.postsEntities id
        ⟨200, { db with posts := posts', postsEntities := links' }⟩

/-- `DELETE /posts/:id` (part_000 lines 577-600); cascade per db.js line 136. -/
def postsDeleteHandler (db : DB) (actor : Actor) (id : Nat) : HRes :=
  match db.posts.find? (fun p => p.id == id) with
  | none => ⟨404, db⟩
  | some p =>
    if !canMutatePost actor p then ⟨403, db⟩
    else ⟨200, { db with
      posts := db.posts.filter (fun q => !(q.id == id))
      postsEntities := dropLink db.postsEntities id }⟩

/-! ### Express routing model (for the GET routes of the news router)

Express dispatches a request to the first registered route whose path
pattern matches; a `:name` segment matches any single path segment. -/

/-- One segment of a route pattern: a literal, or a `:name` parameter. -/
inductive Seg where
  | lit (s : String)
  | param (name : String)
deriving Repr, DecidableEq

/-- A route pattern is its list of segments. -/
abbrev Pattern := List Seg

/-- Whether one pattern segment matches one path segment. -/
def segMatches : Seg → String → Bool
  | .lit s, x => s == x
  | .param _, _ => true

/-- Whether a whole pattern matches a whole path (segment lists of equal
length, segmentwise match). -/
def patMatches : Pattern → List String → Bool
  | [], [] => true
  | s :: ps, x :: xs => segMatches s x && patMatches ps xs
  | _, _ => false

/-- Index of the first registered pattern matching the path, as Express
route dispatch does. -/
def firstMatch : List Pattern → List String → Option Nat
  | [], _ => none
  | p :: ps, path =>
    if patMatches p path then some 0 else (firstMatch ps path).map (· + 1)

/-- The parameter bindings a matching pattern extracts from a path. -/
def bindParams : Pattern → List String → List (String × String)
  | .param n :: ps, x :: xs => (n, x) :: bindParams ps xs
  | _ :: ps, _ :: xs => bindParams ps xs
  | _, _ => []

/-- The GET routes of the news router in registration order
(news.js lines 13, 38, 67, 93, 213): `/`, `/:id`, `/for/:type/:id`,
`/with-entity`, `/entity/:entityType/:entityId`. -/
def newsGetRoutes : List Pattern :=
  [ [],
    [Seg.param "id"],
    [Seg.lit "for", Seg.param "type", Seg.param "id"],
    [Seg.lit "with-entity"],
    [Seg.lit "entity", Seg.param "entityType", Seg.param "entityId"] ]

/-! ### Operation sequences over the news and posts routers (for the
structural invariant of the link tables) -/

/-- One mutating request against the news or posts router. -/
inductive Op where
  | ncreate (actor : Actor) (title content lt : Option String)
      (li : Option Nat) (img : Option String) (f1 f2 fc : Bool)
  | nupdate (actor : Actor) (id : Nat) (title content lt : Option String)
      (li : Option Nat) (img : Option String)
  | nlink (actor : Actor) (id : Nat) (t : String) (eid : Nat)
  | nunlink (actor : Actor) (id : Nat)
  | nremove (actor : Actor) (id : Nat)
  | pcreate (actor : Actor) (content et : Option String)
      (ei : Option Nat) (img : Option String) (f1 f2 fc : Bool)
  | pupdate (actor : Actor) (id : Nat) (content et : Option String)
      (ei : Option Nat) (img : Option String)
  | plink (actor : Actor) (id : Nat) (t : String) (eid : Nat)
  | punlink (actor : Actor) (id : Nat)
  | premove (actor : Actor) (id : Nat)
deriving Repr

/-- The state reached by one request (the response status is dropped). -/
def applyOp (db : DB) : Op → DB
  | .ncreate actor title content lt li img f1 f2 fc =>
    (newsCreateHandler db actor title content lt li img f1 f2 fc).db
  | .nupdate actor id title content lt li img =>
    (newsUpdateHandler db actor id title content lt li img).db
  | .nlink actor id t eid => (newsLinkHandler db actor id t eid).db
  | .nunlink actor id => (newsUnlinkHandler db actor id).db
  | .nremove actor id => (newsDeleteHandler db actor id).db
  | .pcreate actor content et ei img f1 f2 fc =>
    (postsCreateHandler db actor content et ei img f1 f2 fc).db
  | .pupdate actor id content et ei img =>
    (postsUpdateHandler db actor id content et ei img).db
  | .plink actor id t eid => (postsLinkHandler db actor id t eid).db
  | .punlink actor id => (postsUnlinkHandler db actor id).db
  | .premove actor id => (postsDeleteHandler db actor id).db

/-- The state after a sequence of requests. -/
def applyOps (db : DB) (ops : List Op) : DB := ops.foldl applyOp db

/-- A deployment-start state: the entity tables are arbitrary, both owner
tables and both link tables are empty, the SERIAL sequences start at 1. -/
def initDB (classes modules assignments : List Nat) : DB :=
  ⟨classes, modules, assignments, [], [], [], [], 1, 1⟩

/-- Well-formedness of the reachable database states: each link table has
at most one row per owner id (`PRIMARY KEY (news_id)` / `(posts_id)`), every
link row's kind is in the closed set (the CHECK constraints, db.js lines
137 and 172), every link row's owner exists (the REFERENCES clauses), and
every owner id is below its SERIAL sequence value. -/
structure WF (db : DB) : Prop where
  nnodup : (db.newsEntities.map LinkRow.ownerId).Nodup
  nvalid : ∀ r ∈ db.newsEntities, validEntityType r.entityType = true
  nfk : ∀ r ∈ db.newsEntities, ∃ m ∈ db.news, m.id = r.ownerId
  nbound : ∀ m ∈ db.news, m.id < db.newsNextId
  pnodup : (db.postsEntities.map LinkRow.ownerId).Nodup
  pvalid : ∀ r ∈ db.postsEntities, validEntityType r.entityType = true
  pfk : ∀ r ∈ db.postsEntities, ∃ p ∈ db.posts, p.id = r.ownerId
  pbound : ∀ p ∈ db.posts, p.id < db.postsNextId

/-! ### Lemmas about the link-table primitives -/

theorem setRows_map_ownerId (l : List LinkRow) (id : Nat) (t : String)
    (eid : Nat) :
    (setRows l id t eid).map LinkRow.ownerId = l.map LinkRow.ownerId := by
  induction l with
  | nil => rfl
  | cons r rs ih =>
    simp only [setRows, List.map_cons] at ih ⊢
    rw [ih]
    congr 1
    by_cases h : r.ownerId == id <;> simp [h]

theorem mem_setRows {l : List LinkRow} {id : Nat} {t : String} {eid : Nat}
    {r : LinkRow} (h : r ∈ setRows l id t eid) :
    (r ∈ l ∧ r.ownerId ≠ id) ∨
      ∃ r0 ∈ l, r0.ownerId = id ∧
        r = { r0 with entityType := t, entityId := eid } := by
  simp only [setRows, List.mem_map] at h
  obtain ⟨r0, h0, he⟩ := h
  by_cases hc : r0.ownerId = id
  · right
    refine ⟨r0, h0, hc, ?_⟩
    rw [← he]
    simp [hc]
  · left
    have : r = r0 := by rw [← he]; simp [hc]
    subst this
    exact ⟨h0, hc⟩

theorem hasLink_eq_false {l : List LinkRow} {id : Nat}
    (h : hasLink l id = false) : ∀ r ∈ l, r.ownerId ≠ id := by
  intro r hr
  simp only [hasLink, List.any_eq_false] at h
  simpa using h r hr

theorem hasLink_eq_true {l : List LinkRow} {id : Nat}
    (h : hasLink l id = true) : ∃ r ∈ l, r.ownerId = id := by
  simp only [hasLink, List.any_eq_true] at h
  obtain ⟨r, hr, he⟩ := h
  exact ⟨r, hr, by simpa using he⟩

theorem upsertLink_nodup {l : List LinkRow} {id : Nat} {t : String} {eid : Nat}
    (h : (l.map LinkRow.ownerId).Nodup) :
    ((upsertLink l id t eid).map LinkRow.ownerId).Nodup := by
  cases hhas : hasLink l id
  · have hnotin : id ∉ l.map LinkRow.ownerId := by
      simp only [List.mem_map]
      rintro ⟨r, hr, he⟩
      exact hasLink_eq_false hhas r hr he
    simp only [upsertLink, hhas, Bool.false_eq_true, if_neg, ite_false,
      List.map_append]
    simp [List.nodup_append, h, hnotin]
  · simpa [upsertLink, hhas, setRows_map_ownerId] using h

theorem upsertLink_valid {l : List LinkRow} {id : Nat} {t : String} {eid : Nat}
    (hl : ∀ r ∈ l, validEntityType r.entityType = true)
    (ht : validEntityType t = true) :
    ∀ r ∈ upsertLink l id t eid, validEntityType r.entityType = true := by
  intro r hr
  cases hhas : hasLink l id <;> simp only [upsertLink, hhas] at hr
  · simp only [Bool.false_eq_true, ite_false, List.mem_append,
      List.mem_singleton] at hr
    rcases hr with h | rfl
    · exact hl r h
    · exact ht
  · simp only [ite_true] at hr
    rcases mem_setRows hr with ⟨h, _⟩ | ⟨r0, _, _, rfl⟩
    · exact hl r h
    · exact ht

theorem upsertLink_owner {l : List LinkRow} {id : Nat} {t : String} {eid : Nat} :
    ∀ r ∈ upsertLink l id t eid,
      r.ownerId ∈ l.map LinkRow.ownerId ∨ r.ownerId = id := by
  intro r hr
  cases hhas : hasLink l id <;> simp only [upsertLink, hhas] at hr
  · simp only [Bool.false_eq_true, ite_false, List.mem_append,
      List.mem_singleton] at hr
    rcases hr with h | rfl
    · exact Or.inl (List.mem_map_of_mem _ h)
    · exact Or.inr rfl
  · simp only [ite_true] at hr
    rcases mem_setRows hr with ⟨h, _⟩ | ⟨r0, h0, hid, rfl⟩
    · exact Or.inl (List.mem_map_of_mem _ h)
    · exact Or.inr hid

theorem mem_dropLink {l : List LinkRow} {id : Nat} {r : LinkRow} :
    r ∈ dropLink l id ↔ r ∈ l ∧ r.ownerId ≠ id := by
  simp [dropLink, List.mem_filter]

theorem dropLink_nodup {l : List LinkRow} {id : Nat}
    (h : (l.map LinkRow.ownerId).Nodup) :
    ((dropLink l id).map LinkRow.ownerId).Nodup :=
  h.sublist ((List.filter_sublist l).map LinkRow.ownerId)

theorem getLink_dropLink (l : List LinkRow) (id : Nat) :
    getLink (dropLink l id) id = none := by
  have : (dropLink l id).find? (fun r => r.ownerId == id) = none := by
    rw [List.find?_eq_none]
    intro r hr
    have := (mem_dropLink.mp hr).2
    simpa using this
  simp [getLink, this]

theorem filter_setRows (l : List LinkRow) (id : Nat) (t : String) (eid : Nat) :
    (setRows l id t eid).filter (fun r => r.ownerId == id) =
      (l.filter (fun r => r.ownerId == id)).map
        (fun r => { r with entityType := t, entityId := eid }) := by
  induction l with
  | nil => rfl
  | cons r rs ih =>
    have hsr : setRows (r :: rs) id t eid =
        (if (r.ownerId == id) = true then
          { r with entityType := t, entityId := eid } else r) ::
          setRows rs id t eid := rfl
    rw [hsr]
    cases h : (r.ownerId == id) with
    | false =>
      rw [if_neg (by simp), List.filter_cons_of_neg (by simp [h]),
        List.filter_cons_of_neg (by simp [h])]
      exact ih
    | true =>
      rw [if_pos rfl, List.filter_cons_of_pos (by simpa using h),
        List.filter_cons_of_pos (by simpa using h), List.map_cons, ih]

theorem filter_upsertLink {l : List LinkRow} {id : Nat} {t : String}
    {eid : Nat}
    (hlen : (l.filter (fun r => r.ownerId == id)).length ≤ 1) :
    (upsertLink l id t eid).filter (fun r => r.ownerId == id) =
      [⟨id, t, eid⟩] := by
  cases hhas : hasLink l id
  · have hnil : l.filter (fun r => r.ownerId == id) = [] := by
      rw [List.filter_eq_nil_iff]
      intro r hr
      simpa using hasLink_eq_false hhas r hr
    simp only [upsertLink, hhas, Bool.false_eq_true, ite_false]
    rw [List.filter_append, hnil]
    simp
  · simp only [upsertLink, hhas, ite_true]
    rw [filter_setRows]
    obtain ⟨r1, hr1, he1⟩ := hasLink_eq_true hhas
    have hmem : r1 ∈ l.filter (fun r => r.ownerId == id) :=
      List.mem_filter.mpr ⟨hr1, by simpa using he1⟩
    obtain ⟨r0, hr0⟩ : ∃ r0, l.filter (fun r => r.ownerId == id) = [r0] := by
      cases hl : l.filter (fun r => r.ownerId == id) with
      | nil => rw [hl] at hmem; simp at hmem
      | cons a bs =>
        cases bs with
        | nil => exact ⟨a, rfl⟩
        | cons b cs => rw [hl] at hlen; simp at hlen
    have hr0id : r0.ownerId = id := by
      have : r0 ∈ l.filter (fun r => r.ownerId == id) := by
        rw [hr0]; exact List.mem_singleton.mpr rfl
      simpa using (List.mem_filter.mp this).2
    rw [hr0]
    simp [← hr0id]

theorem setRows_eq_self {l : List LinkRow} {id : Nat} {t : String} {eid : Nat}
    (h : ∀ r ∈ l, r.ownerId = id → r.entityType = t ∧ r.entityId = eid) :
    setRows l id t eid = l := by
  induction l with
  | nil => rfl
  | cons r rs ih =>
    simp only [setRows, List.map_cons] at ih ⊢
    rw [ih fun a ha => h a (List.mem_cons_of_mem r ha)]
    by_cases hc : r.ownerId = id
    · obtain ⟨h1, h2⟩ := h r (List.mem_cons_self r rs) hc
      cases r
      simp_all
    · simp [hc]

theorem upsertLink_rows_set {l : List LinkRow} {id : Nat} {t : String}
    {eid : Nat} :
    ∀ r ∈ upsertLink l id t eid, r.ownerId = id →
      r.entityType = t ∧ r.entityId = eid := by
  intro r hr hid
  cases hhas : hasLink l id <;> simp only [upsertLink, hhas] at hr
  · simp only [Bool.false_eq_true, ite_false, List.mem_append,
      List.mem_singleton] at hr
    rcases hr with h | rfl
    · exact absurd hid (hasLink_eq_false hhas r h)
    · exact ⟨rfl, rfl⟩
  · simp only [ite_true] at hr
    rcases mem_setRows hr with ⟨_, hne⟩ | ⟨r0, _, _, rfl⟩
    · exact absurd hid hne
    · exact ⟨rfl, rfl⟩

theorem hasLink_upsertLink (l : List LinkRow) (id : Nat) (t : String)
    (eid : Nat) : hasLink (upsertLink l id t eid) id = true := by
  cases hhas : hasLink l id
  · simp only [upsertLink, hhas, Bool.false_eq_true, ite_false]
    simp [hasLink]
  · obtain ⟨r0, hr0, he0⟩ := hasLink_eq_true hhas
    simp only [upsertLink, hhas, ite_true]
    simp only [hasLink, List.any_eq_true]
    refine ⟨{ r0 with entityType := t, entityId := eid }, ?_, by simpa using he0⟩
    simp only [setRows, List.mem_map]
    exact ⟨r0, hr0, by simp [he0]⟩

theorem upsertLink_idem (l : List LinkRow) (id : Nat) (t : String)
    (eid : Nat) :
    upsertLink (upsertLink l id t eid) id t eid = upsertLink l id t eid := by
  rw [upsertLink, hasLink_upsertLink]
  simp only [ite_true]
  exact setRows_eq_self upsertLink_rows_set

/-! ### Lemmas about the primary-record updates -/

theorem setNewsFields_id {l : List NewsRow} {id : Nat} {tt cc : String}
    {im : Option String} {m : NewsRow} (h : m ∈ setNewsFields l id tt cc im) :
    ∃ m0 ∈ l, m.id = m0.id := by
  simp only [setNewsFields, List.mem_map] at h
  obtain ⟨m0, h0, he⟩ := h
  refine ⟨m0, h0, ?_⟩
  rw [← he]
  by_cases hc : m0.id == id <;> simp [hc]

theorem setNewsFields_mem {l : List NewsRow} {id : Nat} {tt cc : String}
    {im : Option String} {m0 : NewsRow} (h : m0 ∈ l) :
    ∃ m ∈ setNewsFields l id tt cc im, m.id = m0.id := by
  refine ⟨_, List.mem_map_of_mem _ h, ?_⟩
  by_cases hc : m0.id == id <;> simp [hc]

theorem setPostFields_id {l : List PostRow} {id : Nat} {cc : String}
    {im : Option String} {q : PostRow} (h : q ∈ setPostFields l id cc im) :
    ∃ q0 ∈ l, q.id = q0.id := by
  simp only [setPostFields, List.mem_map] at h
  obtain ⟨q0, h0, he⟩ := h
  refine ⟨q0, h0, ?_⟩
  rw [← he]
  by_cases hc : q0.id == id <;> simp [hc]

theorem setPostFields_mem {l : List PostRow} {id : Nat} {cc : String}
    {im : Option String} {q0 : PostRow} (h : q0 ∈ l) :
    ∃ q ∈ setPostFields l id cc im, q.id = q0.id := by
  refine ⟨_, List.mem_map_of_mem _ h, ?_⟩
  by_cases hc : q0.id == id <;> simp [hc]

/-! ### Preservation of well-formedness by each state shape a handler
can produce -/

theorem WF_newsUpsert {db : DB} {id : Nat} {t : String} {eid : Nat}
    (h : WF db) (ht : validEntityType t = true)
    (hm : ∃ m ∈ db.news, m.id = id) :
    WF { db with newsEntities := upsertLink db.newsEntities id t eid } := by
  refine ⟨upsertLink_nodup h.nnodup, upsertLink_valid h.nvalid ht, ?_,
    h.nbound, h.pnodup, h.pvalid, h.pfk, h.pbound⟩
  intro r hr
  rcases upsertLink_owner r hr with hin | heq
  · simp only [List.mem_map] at hin
    obtain ⟨r0, hr0, he⟩ := hin
    obtain ⟨m, hm0, hid⟩ := h.nfk r0 hr0
    exact ⟨m, hm0, by rw [hid, he]⟩
  · obtain ⟨m, hm0, hid⟩ := hm
    exact ⟨m, hm0, by rw [hid, heq]⟩

theorem WF_newsDrop {db : DB} {id : Nat} (h : WF db) :
    WF { db with newsEntities := dropLink db.newsEntities id } := by
  refine ⟨dropLink_nodup h.nnodup, ?_, ?_, h.nbound, h.pnodup, h.pvalid,
    h.pfk, h.pbound⟩
  · intro r hr
    exact h.nvalid r (mem_dropLink.mp hr).1
  · intro r hr
    exact h.nfk r (mem_dropLink.mp hr).1

theorem WF_newsDelete {db : DB} {id : Nat} (h : WF db) :
    WF { db with
      news := db.news.filter (fun m => !(m.id == id))
      newsEntities := dropLink db.newsEntities id } := by
  refine ⟨dropLink_nodup h.nnodup, ?_, ?_, ?_, h.pnodup, h.pvalid,
    h.pfk, h.pbound⟩
  · intro r hr
    exact h.nvalid r (mem_dropLink.mp hr).1
  · intro r hr
    obtain ⟨hrl, hrne⟩ := mem_dropLink.mp hr
    obtain ⟨m, hm0, hid⟩ := h.nfk r hrl
    refine ⟨m, List.mem_filter.mpr ⟨hm0, ?_⟩, hid⟩
    simp only [Bool.not_eq_eq_eq_not, Bool.not_true, beq_eq_false_iff_ne,
      ne_eq]
    rw [hid]
    exact hrne
  · intro m hm
    exact h.nbound m (List.mem_filter.mp hm).1

theorem WF_newsUpdate {db : DB} {id : Nat} {tt cc : String}
    {im : Option String} {L : List LinkRow} (h : WF db)
    (hm : ∃ m ∈ db.news, m.id = id)
    (hL : (∃ t eid, validEntityType t = true ∧
            L = upsertLink db.newsEntities id t eid) ∨
          L = dropLink db.newsEntities id) :
    WF { db with
      news := setNewsFields db.news id tt cc im
      newsEntities := L } := by
  have hfk0 : ∀ r ∈ L, ∃ m0 ∈ db.news, m0.id = r.ownerId := by
    intro r hr
    rcases hL with ⟨t, eid, _, rfl⟩ | rfl
    · rcases upsertLink_owner r hr with hin | heq
      · simp only [List.mem_map] at hin
        obtain ⟨r0, hr0, he⟩ := hin
        obtain ⟨m, hm0, hid⟩ := h.nfk r0 hr0
        exact ⟨m, hm0, by rw [hid, he]⟩
      · obtain ⟨m, hm0, hid⟩ := hm
        exact ⟨m, hm0, by rw [hid, heq]⟩
    · obtain ⟨m, hm0, hid⟩ := h.nfk r (mem_dropLink.mp hr).1
      exact ⟨m, hm0, hid⟩
  refine ⟨?_, ?_, ?_, ?_, h.pnodup, h.pvalid, h.pfk, h.pbound⟩
  · rcases hL with ⟨t, eid, _, rfl⟩ | rfl
    · exact upsertLink_nodup h.nnodup
    · exact dropLink_nodup h.nnodup
  · rcases hL with ⟨t, eid, ht, rfl⟩ | rfl
    · exact upsertLink_valid h.nvalid ht
    · intro r hr
      exact h.nvalid r (mem_dropLink.mp hr).1
  · intro r hr
    obtain ⟨m0, hm0, hid⟩ := hfk0 r hr
    obtain ⟨m, hmem, hme⟩ := @setNewsFields_mem db.news id tt cc im m0 hm0
    exact ⟨m, hmem, by rw [hme, hid]⟩
  · intro m hmem
    obtain ⟨m0, hm0, hme⟩ := setNewsFields_id hmem
    rw [hme]
    exact h.nbound m0 hm0

theorem WF_newsInsert {db : DB} {tt cc : String} {im : Option String}
    {uid : Nat} (h : WF db) :
    WF { db with
      news := db.news ++ [⟨db.newsNextId, tt, cc, im, uid⟩]
      newsNextId := db.newsNextId + 1 } := by
  refine ⟨h.nnodup, h.nvalid, ?_, ?_, h.pnodup, h.pvalid, h.pfk, h.pbound⟩
  · intro r hr
    obtain ⟨m, hm0, hid⟩ := h.nfk r hr
    exact ⟨m, List.mem_append_left _ hm0, hid⟩
  · intro m hmem
    rcases List.mem_append.mp hmem with hin | hnew
    · exact Nat.lt_succ_of_lt (h.nbound m hin)
    · rw [List.mem_singleton.mp hnew]
      exact Nat.lt_succ_self _

theorem WF_newsInsertLink {db : DB} {tt cc : String} {im : Option String}
    {uid : Nat} {t : String} {eid : Nat} (h : WF db)
    (ht : validEntityType t = true) :
    WF { db with
      news := db.news ++ [⟨db.newsNextId, tt, cc, im, uid⟩]
      newsNextId := db.newsNextId + 1
      newsEntities := db.newsEntities ++ [⟨db.newsNextId, t, eid⟩] } := by
  have hfresh : db.newsNextId ∉ db.newsEntities.map LinkRow.ownerId := by
    simp only [List.mem_map]
    rintro ⟨r, hr, he⟩
    obtain ⟨m, hm0, hid⟩ := h.nfk r hr
    have := h.nbound m hm0
    rw [hid, he] at this
    exact Nat.lt_irrefl _ this
  refine ⟨?_, ?_, ?_, ?_, h.pnodup, h.pvalid, h.pfk, h.pbound⟩
  · rw [List.map_append]
    simp [List.nodup_append, h.nnodup, hfresh]
  · intro r hr
    rcases List.mem_append.mp hr with hin | hnew
    · exact h.nvalid r hin
    · rw [List.mem_singleton.mp hnew]
      exact ht
  · intro r hr
    rcases List.mem_append.mp hr with hin | hnew
    · obtain ⟨m, hm0, hid⟩ := h.nfk r hin
      exact ⟨m, List.mem_append_left _ hm0, hid⟩
    · rw [List.mem_singleton.mp hnew]
      exact ⟨_, List.mem_append_right _ (List.mem_singleton.mpr rfl), rfl⟩
  · intro m hmem
    rcases List.mem_append.mp hmem with hin | hnew
    · exact Nat.lt_succ_of_lt (h.nbound m hin)
    · rw [List.mem_singleton.mp hnew]
      exact Nat.lt_succ_self _

theorem WF_postsUpsert {db : DB} {id : Nat} {t : String} {eid : Nat}
    (h : WF db) (ht : validEntityType t = true)
    (hm : ∃ p ∈ db.posts, p.id = id) :
    WF { db with postsEntities := upsertLink db.postsEntities id t eid } := by
  refine ⟨h.nnodup, h.nvalid, h.nfk, h.nbound, upsertLink_nodup h.pnodup,
    upsertLink_valid h.pvalid ht, ?_, h.pbound⟩
  intro r hr
  rcases upsertLink_owner r hr with hin | heq
  · simp only [List.mem_map] at hin
    obtain ⟨r0, hr0, he⟩ := hin
    obtain ⟨p, hp0, hid⟩ := h.pfk r0 hr0
    exact ⟨p, hp0, by rw [hid, he]⟩
  · obtain ⟨p, hp0, hid⟩ := hm
    exact ⟨p, hp0, by rw [hid, heq]⟩

theorem WF_postsDrop {db : DB} {id : Nat} (h : WF db) :
    WF { db with postsEntities := dropLink db.postsEntities id } := by
  refine ⟨h.nnodup, h.nvalid, h.nfk, h.nbound, dropLink_nodup h.pnodup,
    ?_, ?_, h.pbound⟩
  · intro r hr
    exact h.pvalid r (mem_dropLink.mp hr).1
  · intro r hr
    exact h.pfk r (mem_dropLink.mp hr).1

theorem WF_postsDelete {db : DB} {id : Nat} (h : WF db) :
    WF { db with
      posts := db.posts.filter (fun q => !(q.id == id))
      postsEntities := dropLink db.postsEntities id } := by
  refine ⟨h.nnodup, h.nvalid, h.nfk, h.nbound, dropLink_nodup h.pnodup,
    ?_, ?_, ?_⟩
  · intro r hr
    exact h.pvalid r (mem_dropLink.mp hr).1
  · intro r hr
    obtain ⟨hrl, hrne⟩ := mem_dropLink.mp hr
    obtain ⟨p, hp0, hid⟩ := h.pfk r hrl
    refine ⟨p, List.mem_filter.mpr ⟨hp0, ?_⟩, hid⟩
    simp only [Bool.not_eq_eq_eq_not, Bool.not_true, beq_eq_false_iff_ne,
      ne_eq]
    rw [hid]
    exact hrne
  · intro p hp
    exact h.pbound p (List.mem_filter.mp hp).1

theorem WF_postsUpdate {db : DB} {id : Nat} {cc : String}
    {im : Option String} {L : List LinkRow} (h : WF db)
    (hm : ∃ p ∈ db.posts, p.id = id)
    (hL : (∃ t eid, validEntityType t = true ∧
            L = upsertLink db.postsEntities id t eid) ∨
          L = dropLink db.postsEntities id) :
    WF { db with
      posts := setPostFields db.posts id cc im
      postsEntities := L } := by
  have hfk0 : ∀ r ∈ L, ∃ p0 ∈ db.posts, p0.id = r.ownerId := by
    intro r hr
    rcases hL with ⟨t, eid, _, rfl⟩ | rfl
    · rcases upsertLink_owner r hr with hin | heq
      · simp only [List.mem_map] at hin
        obtain ⟨r0, hr0, he⟩ := hin
        obtain ⟨p, hp0, hid⟩ := h.pfk r0 hr0
        exact ⟨p, hp0, by rw [hid, he]⟩
      · obtain ⟨p, hp0, hid⟩ := hm
        exact ⟨p, hp0, by rw [hid, heq]⟩
    · obtain ⟨p, hp0, hid⟩ := h.pfk r (mem_dropLink.mp hr).1
      exact ⟨p, hp0, hid⟩
  refine ⟨h.nnodup, h.nvalid, h.nfk, h.nbound, ?_, ?_, ?_, ?_⟩
  · rcases hL with ⟨t, eid, _, rfl⟩ | rfl
    · exact upsertLink_nodup h.pnodup
    · exact dropLink_nodup h.pnodup
  · rcases hL with ⟨t, eid, ht, rfl⟩ | rfl
    · exact upsertLink_valid h.pvalid ht
    · intro r hr
      exact h.pvalid r (mem_dropLink.mp hr).1
  · intro r hr
    obtain ⟨p0, hp0, hid⟩ := hfk0 r hr
    obtain ⟨p, hpm, hpe⟩ := @setPostFields_mem db.posts id cc im p0 hp0
    exact ⟨p, hpm, by rw [hpe, hid]⟩
  · intro p hp
    obtain ⟨p0, hp0, hpe⟩ := setPostFields_id hp
    rw [hpe]
    exact h.pbound p0 hp0

theorem WF_postsInsert {db : DB} {cc : String} {im : Option String}
    {uid : Nat} (h : WF db) :
    WF { db with
      posts := db.posts ++ [⟨db.postsNextId, uid, cc, im⟩]
      postsNextId := db.postsNextId + 1 } := by
  refine ⟨h.nnodup, h.nvalid, h.nfk, h.nbound, h.pnodup, h.pvalid, ?_, ?_⟩
  · intro r hr
    obtain ⟨p, hp0, hid⟩ := h.pfk r hr
    exact ⟨p, List.mem_append_left _ hp0, hid⟩
  · intro p hp
    rcases List.mem_append.mp hp with hin | hnew
    · exact Nat.lt_succ_of_lt (h.pbound p hin)
    · rw [List.mem_singleton.mp hnew]
      exact Nat.lt_succ_self _

theorem WF_postsInsertLink {db : DB} {cc : String} {im : Option String}
    {uid : Nat} {t : String} {eid : Nat} (h : WF db)
    (ht : validEntityType t = true) :
    WF { db with
      posts := db.posts ++ [⟨db.postsNextId, uid, cc, im⟩]
      postsNextId := db.postsNextId + 1
      postsEntities := db.postsEntities ++ [⟨db.postsNextId, t, eid⟩] } := by
  have hfresh : db.postsNextId ∉ db.postsEntities.map LinkRow.ownerId := by
    simp only [List.mem_map]
    rintro ⟨r, hr, he⟩
    obtain ⟨p, hp0, hid⟩ := h.pfk r hr
    have := h.pbound p hp0
    rw [hid, he] at this
    exact Nat.lt_irrefl _ this
  refine ⟨h.nnodup, h.nvalid, h.nfk, h.nbound, ?_, ?_, ?_, ?_⟩
  · rw [List.map_append]
    simp [List.nodup_append, h.pnodup, hfresh]
  · intro r hr
    rcases List.mem_append.mp hr with hin | hnew
    · exact h.pvalid r hin
    · rw [List.mem_singleton.mp hnew]
      exact ht
  · intro r hr
    rcases List.mem_append.mp hr with hin | hnew
    · obtain ⟨p, hp0, hid⟩ := h.pfk r hin
      exact ⟨p, List.mem_append_left _ hp0, hid⟩
    · rw [List.mem_singleton.mp hnew]
      exact ⟨_, List.mem_append_right _ (List.mem_singleton.mpr rfl), rfl⟩
  · intro p hp
    rcases List.mem_append.mp hp with hin | hnew
    · exact Nat.lt_succ_of_lt (h.pbound p hin)
    · rw [List.mem_singleton.mp hnew]
      exact Nat.lt_succ_self _

theorem exists_of_find_news {db : DB} {id : Nat} {n : NewsRow}
    (hf : db.news.find? (fun m => m.id == id) = some n) :
    ∃ m ∈ db.news, m.id = id :=
  ⟨n, List.mem_of_find?_eq_some hf, by simpa using List.find?_some hf⟩

theorem exists_of_find_posts {db : DB} {id : Nat} {p : PostRow}
    (hf : db.posts.find? (fun q => q.id == id) = some p) :
    ∃ q ∈ db.posts, q.id = id :=
  ⟨p, List.mem_of_find?_eq_some hf, by simpa using List.find?_some hf⟩

theorem WF_newsLinkHandler (db : DB) (actor : Actor) (id : Nat) (t : String)
    (eid : Nat) (h : WF db) : WF (newsLinkHandler db actor id t eid).db := by
  unfold newsLinkHandler
  split
  · exact h
  rename_i n hf
  split
  · exact h
  split
  · exact h
  split
  · exact h
  rename_i h1 h2 h3
  exact WF_newsUpsert h (by simpa using h2) (exists_of_find_news hf)

theorem WF_newsUnlinkHandler (db : DB) (actor : Actor) (id : Nat)
    (h : WF db) : WF (newsUnlinkHandler db actor id).db := by
  unfold newsUnlinkHandler
  split
  · exact h
  split
  · exact h
  exact WF_newsDrop h

theorem WF_newsDeleteHandler (db : DB) (actor : Actor) (id : Nat)
    (h : WF db) : WF (newsDeleteHandler db actor id).db := by
  unfold newsDeleteHandler
  split
  · exact h
  split
  · exact h
  exact WF_newsDelete h

theorem WF_newsUpdateHandler (db : DB) (actor : Actor) (id : Nat)
    (title content lt : Option String) (li : Option Nat) (img : Option String)
    (h : WF db) :
    WF (newsUpdateHandler db actor id title content lt li img).db := by
  unfold newsUpdateHandler
  split
  · exact h
  split
  · exact h
  rename_i hv1 hv2
  split
  · exact h
  rename_i n hf
  split
  · exact h
  split
  · exact h
  cases hg : (truthyS lt && li.isSome) with
  | false =>
    refine WF_newsUpdate h (exists_of_find_news hf) (Or.inr ?_)
    simp [hg]
  | true =>
    refine WF_newsUpdate h (exists_of_find_news hf)
      (Or.inl ⟨lt.getD "", li.getD 0, ?_, ?_⟩)
    · have hlt : truthyS lt = true := by
        rw [Bool.and_eq_true] at hg
        exact hg.1
      by_cases hv : validEntityType (lt.getD "") = true
      · exact hv
      · exact absurd (by simp [hlt, hv]) hv2
    · simp [hg]

theorem WF_newsCreateHandler (db : DB) (actor : Actor)
    (title content lt : Option String) (li : Option Nat) (img : Option String)
    (f1 f2 fc : Bool) (h : WF db) :
    WF (newsCreateHandler db actor title content lt li img f1 f2 fc).db := by
  unfold newsCreateHandler
  split
  · exact h
  split
  · exact h
  rename_i hv1 hv2
  split
  · exact h
  split
  · exact h
  cases hg : (truthyS lt && li.isSome) with
  | false =>
    simp only [hg, Bool.false_eq_true, ite_false]
    split
    · exact h
    exact WF_newsInsert h
  | true =>
    simp only [hg, ite_true]
    split
    · exact h
    split
    · exact h
    have hlt : truthyS lt = true := by
      rw [Bool.and_eq_true] at hg
      exact hg.1
    have hv : validEntityType (lt.getD "") = true := by
      by_cases hv : validEntityType (lt.getD "") = true
      · exact hv
      · exact absurd (by simp [hlt, hv]) hv2
    exact WF_newsInsertLink h hv

theorem WF_postsLinkHandler (db : DB) (actor : Actor) (id : Nat) (t : String)
    (eid : Nat) (h : WF db) : WF (postsLinkHandler db actor id t eid).db := by
  unfold postsLinkHandler
  split
  · exact h
  rename_i p hf
  split
  · exact h
  split
  · exact h
  split
  · exact h
  rename_i h1 h2 h3
  exact WF_postsUpsert h (by simpa using h2) (exists_of_find_posts hf)

theorem WF_postsUnlinkHandler (db : DB) (actor : Actor) (id : Nat)
    (h : WF db) : WF (postsUnlinkHandler db actor id).db := by
  unfold postsUnlinkHandler
  split
  · exact h
  split
  · exact h
  exact WF_postsDrop h

theorem WF_postsDeleteHandler (db : DB) (actor : Actor) (id : Nat)
    (h : WF db) : WF (postsDeleteHandler db actor id).db := by
  unfold postsDeleteHandler
  split
  · exact h
  split
  · exact h
  exact WF_postsDelete h

theorem WF_postsUpdateHandler (db : DB) (actor : Actor) (id : Nat)
    (content et : Option String) (ei : Option Nat) (img : Option String)
    (h : WF db) :
    WF (postsUpdateHandler db actor id content et ei img).db := by
  unfold postsUpdateHandler
  split
  · exact h
  split
  · exact h
  rename_i hv1 hv2
  split
  · exact h
  rename_i p hf
  split
  · exact h
  split
  · exact h
  cases hg : (truthyS et && ei.isSome) with
  | false =>
    refine WF_postsUpdate h (exists_of_find_posts hf) (Or.inr ?_)
    simp [hg]
  | true =>
    refine WF_postsUpdate h (exists_of_find_posts hf)
      (Or.inl ⟨et.getD "", ei.getD 0, ?_, ?_⟩)
    · have het : truthyS et = true := by
        rw [Bool.and_eq_true] at hg
        exact hg.1
      by_cases hv : validEntityType (et.getD "") = true
      · exact hv
      · exact absurd (by simp [het, hv]) hv2
    · simp [hg]

theorem WF_postsCreateHandler (db : DB) (actor : Actor)
    (content et : Option String) (ei : Option Nat) (img : Option String)
    (f1 f2 fc : Bool) (h : WF db) :
    WF (postsCreateHandler db actor content et ei img f1 f2 fc).db := by
  unfold postsCreateHandler
  split
  · exact h
  split
  · exact h
  rename_i hv1 hv2
  split
  · exact h
  split
  · exact h
  cases hg : (truthyS et && ei.isSome) with
  | false =>
    simp only [hg, Bool.false_eq_true, ite_false]
    split
    · exact h
    exact WF_postsInsert h
  | true =>
    simp only [hg, ite_true]
    split
    · exact h
    split
    · exact h
    have het : truthyS et = true := by
      rw [Bool.and_eq_true] at hg
      exact hg.1
    have hv : validEntityType (et.getD "") = true := by
      by_cases hv : validEntityType (et.getD "") = true
      · exact hv
      · exact absurd (by simp [het, hv]) hv2
    exact WF_postsInsertLink h hv

theorem WF_applyOp {db : DB} (h : WF db) (op : Op) : WF (applyOp db op) := by
  cases op with
  | ncreate actor title content lt li img f1 f2 fc =>
    exact WF_newsCreateHandler db actor title content lt li img f1 f2 fc h
  | nupdate actor id title content lt li img =>
    exact WF_newsUpdateHandler db actor id title content lt li img h
  | nlink actor id t eid => exact WF_newsLinkHandler db actor id t eid h
  | nunlink actor id => exact WF_newsUnlinkHandler db actor id h
  | nremove actor id => exact WF_newsDeleteHandler db actor id h
  | pcreate actor content et ei img f1 f2 fc =>
    exact WF_postsCreateHandler db actor content et ei img f1 f2 fc h
  | pupdate actor id content et ei img =>
    exact WF_postsUpdateHandler db actor id content et ei img h
  | plink actor id t eid => exact WF_postsLinkHandler db actor id t eid h
  | punlink actor id => exact WF_postsUnlinkHandler db actor id h
  | premove actor id => exact WF_postsDeleteHandler db actor id h

theorem WF_applyOps {db : DB} (h : WF db) (ops : List Op) :
    WF (applyOps db ops) := by
  induction ops generalizing db with
  | nil => exact h
  | cons op ops ih => exact ih (WF_applyOp h op)

theorem WF_initDB (classes modules assignments : List Nat) :
    WF (initDB classes modules assignments) := by
  refine ⟨?_, ?_, ?_, ?_, ?_, ?_, ?_, ?_⟩ <;> simp [initDB]

theorem count_le_one_of_nodup {l : List LinkRow}
    (h : (l.map LinkRow.ownerId).Nodup) (id : Nat) :
    (l.filter (fun r => r.ownerId == id)).length ≤ 1 := by
  induction l with
  | nil => simp
  | cons r rs ih =>
    simp only [List.map_cons, List.nodup_cons] at h
    obtain ⟨hnot, hnd⟩ := h
    by_cases hc : r.ownerId = id
    · rw [List.filter_cons_of_pos (by simpa using hc)]
      have hnil : rs.filter (fun r => r.ownerId == id) = [] := by
        rw [List.filter_eq_nil_iff]
        intro a ha hae
        exact hnot (by
          rw [hc, ← show a.ownerId = id by simpa using hae]
          exact List.mem_map_of_mem _ ha)
      simp [hnil]
    · rw [List.filter_cons_of_neg (by simp [hc])]
      exact ih hnd

theorem validEntityType_cases {t : String} (h : validEntityType t = true) :
    t = "class" ∨ t = "module" ∨ t = "assignment" := by
  simpa [validEntityType] using h

theorem validEntityType_ne_empty {t : String}
    (h : validEntityType t = true) : t ≠ "" := by
  rcases validEntityType_cases h with rfl | rfl | rfl <;> decide

/-- C2: starting at any deployment-start state, after every sequence of
create / update / link / unlink / delete requests to the news and posts
routers, each owner id has at most one link row in its link table, and
every link row's entity kind is in the closed set
\x7bclass, module, assignment\x7d. -/
theorem claim2_link_invariant (classes modules assignments : List Nat)
    (ops : List Op) (id : Nat) :
    (((applyOps (initDB classes modules assignments) ops).newsEntities.filter
        (fun r => r.ownerId == id)).length ≤ 1 ∧
      ∀ r ∈ (applyOps (initDB classes modules assignments) ops).newsEntities,
        r.entityType = "class" ∨ r.entityType = "module" ∨
          r.entityType = "assignment") ∧
    (((applyOps (initDB classes modules assignments) ops).postsEntities.filter
        (fun r => r.ownerId == id)).length ≤ 1 ∧
      ∀ r ∈ (applyOps (initDB classes modules assignments) ops).postsEntities,
        r.entityType = "class" ∨ r.entityType = "module" ∨
          r.entityType = "assignment") := by
  have h := WF_applyOps (WF_initDB classes modules assignments) ops
  refine ⟨⟨count_le_one_of_nodup h.nnodup id, ?_⟩,
    count_le_one_of_nodup h.pnodup id, ?_⟩
  · intro r hr
    exact validEntityType_cases (h.nvalid r hr)
  · intro r hr
    exact validEntityType_cases (h.pvalid r hr)

theorem authz_newsLink {db : DB} {actor : Actor} {id eid : Nat} {t : String}
    {n : NewsRow} (hn : db.news.find? (fun m => m.id == id) = some n) :
    ((newsLinkHandler db actor id t eid).status = 403 ↔
      canMutateNews actor n = false) := by
  unfold newsLinkHandler
  rw [hn]
  cases hcm : canMutateNews actor n with
  | false => simp [hcm]
  | true =>
    simp only [hcm, Bool.not_true, Bool.false_eq_true, ite_false]
    split <;> simp
    split <;> simp

theorem authz_newsUnlink {db : DB} {actor : Actor} {id : Nat}
    {n : NewsRow} (hn : db.news.find? (fun m => m.id == id) = some n) :
    ((newsUnlinkHandler db actor id).status = 403 ↔
      canMutateNews actor n = false) := by
  unfold newsUnlinkHandler
  rw [hn]
  cases hcm : canMutateNews actor n <;> simp [hcm]

theorem authz_newsDelete {db : DB} {actor : Actor} {id : Nat}
    {n : NewsRow} (hn : db.news.find? (fun m => m.id == id) = some n) :
    ((newsDeleteHandler db actor id).status = 403 ↔
      canMutateNews actor n = false) := by
  unfold newsDeleteHandler
  rw [hn]
  cases hcm : canMutateNews actor n <;> simp [hcm]

theorem authz_newsUpdate {db : DB} {actor : Actor} {id eid : Nat}
    {t title content : String} {img : Option String} {n : NewsRow}
    (hn : db.news.find? (fun m => m.id == id) = some n)
    (ht : validEntityType t = true)
    (htt : title ≠ "") (hcc : content ≠ "") :
    ((newsUpdateHandler db actor id (some title) (some content) (some t)
        (some eid) img).status = 403 ↔ canMutateNews actor n = false) := by
  unfold newsUpdateHandler
  have h1 : (truthyS (some title) && truthyS (some content)) = true := by
    simp [truthyS, htt, hcc]
  have h2 : (truthyS (some t) && !validEntityType ((some t).getD "")) = false := by
    simp [ht]
  rw [h1, h2, hn]
  cases hcm : canMutateNews actor n with
  | false => simp [hcm]
  | true =>
    simp only [hcm, Bool.not_true, Bool.false_eq_true, ite_false,
      Bool.not_false, ite_true]
    split <;> simp

theorem authz_postsLink {db : DB} {actor : Actor} {id eid : Nat} {t : String}
    {p : PostRow} (hp : db.posts.find? (fun q => q.id == id) = some p) :
    ((postsLinkHandler db actor id t eid).status = 403 ↔
      canMutatePost actor p = false) := by
  unfold postsLinkHandler
  rw [hp]
  cases hcm : canMutatePost actor p with
  | false => simp [hcm]
  | true =>
    simp only [hcm, Bool.not_true, Bool.false_eq_true, ite_false]
    split <;> simp
    split <;> simp

theorem authz_postsUnlink {db : DB} {actor : Actor} {id : Nat}
    {p : PostRow} (hp : db.posts.find? (fun q => q.id == id) = some p) :
    ((postsUnlinkHandler db actor id).status = 403 ↔
      canMutatePost actor p = false) := by
  unfold postsUnlinkHandler
  rw [hp]
  cases hcm : canMutatePost actor p <;> simp [hcm]

theorem authz_postsDelete {db : DB} {actor : Actor} {id : Nat}
    {p : PostRow} (hp : db.posts.find? (fun q => q.id == id) = some p) :
    ((postsDeleteHandler db actor id).status = 403 ↔
      canMutatePost actor p = false) := by
  unfold postsDeleteHandler
  rw [hp]
  cases hcm : canMutatePost actor p <;> simp [hcm]

theorem authz_postsUpdate {db : DB} {actor : Actor} {id eid : Nat}
    {t content : String} {img : Option String} {p : PostRow}
    (hp : db.posts.find? (fun q => q.id == id) = some p)
    (ht : validEntityType t = true) (hcc : content ≠ "") :
    ((postsUpdateHandler db actor id (some content) (some t)
        (some eid) img).status = 403 ↔ canMutatePost actor p = false) := by
  unfold postsUpdateHandler
  have h1 : truthyS (some content) = true := by simp [truthyS, hcc]
  have h2 : (truthyS (some t) && !validEntityType ((some t).getD "")) = false := by
    simp [ht]
  rw [h1, h2, hp]
  cases hcm : canMutatePost actor p with
  | false => simp [hcm]
  | true =>
    simp only [hcm, Bool.not_true, Bool.false_eq_true, ite_false,
      Bool.not_false, ite_true]
    split <;> simp

/-- C1 counterexample: user 2 has the privileged role "aslab" and is not the
creator of post 1 (created by user 1), yet every post mutation — update,
delete, link, unlink — is refused with 403 and leaves the state unchanged,
so the privileged role does NOT let a non-creator mutate a Post. -/
theorem claim1_counterexample :
    (Actor.mk 2 "aslab").role = "aslab" ∧
    (DB.mk [1] [] [] [⟨1, "t", "c", none, 1⟩] [⟨1, 1, "c", none⟩] [] [] 2 2).posts
      = [⟨1, 1, "c", none⟩] ∧
    (1 : Nat) ≠ 2 ∧
    postsUpdateHandler
      (DB.mk [1] [] [] [⟨1, "t", "c", none, 1⟩] [⟨1, 1, "c", none⟩] [] [] 2 2)
      (Actor.mk 2 "aslab") 1 (some "x") (some "class") (some 1) none =
      ⟨403, DB.mk [1] [] [] [⟨1, "t", "c", none, 1⟩] [⟨1, 1, "c", none⟩] [] [] 2 2⟩ ∧
    postsDeleteHandler
      (DB.mk [1] [] [] [⟨1, "t", "c", none, 1⟩] [⟨1, 1, "c", none⟩] [] [] 2 2)
      (Actor.mk 2 "aslab") 1 =
      ⟨403, DB.mk [1] [] [] [⟨1, "t", "c", none, 1⟩] [⟨1, 1, "c", none⟩] [] [] 2 2⟩ ∧
    postsLinkHandler
      (DB.mk [1] [] [] [⟨1, "t", "c", none, 1⟩] [⟨1, 1, "c", none⟩] [] [] 2 2)
      (Actor.mk 2 "aslab") 1 "class" 1 =
      ⟨403, DB.mk [1] [] [] [⟨1, "t", "c", none, 1⟩] [⟨1, 1, "c", none⟩] [] [] 2 2⟩ ∧
    postsUnlinkHandler
      (DB.mk [1] [] [] [⟨1, "t", "c", none, 1⟩] [⟨1, 1, "c", none⟩] [] [] 2 2)
      (Actor.mk 2 "aslab") 1 =
      ⟨403, DB.mk [1] [] [] [⟨1, "t", "c", none, 1⟩] [⟨1, 1, "c", none⟩] [] [] 2 2⟩ := by
  decide

/-- C1 amended: the mutation routes of the two routers do not apply one
predicate.  For News (update, delete, link, unlink) the request is refused
with 403 exactly when the actor is neither the creator nor of role "aslab";
for Posts (update, delete, link, unlink) it is refused with 403 exactly when
the actor is not the creator — the privileged role "aslab" gives no bypass
on Posts. -/
theorem claim1_authz (db : DB) (actor : Actor) (nid pid eid : Nat)
    (t title content : String) (img : Option String) (n : NewsRow)
    (p : PostRow)
    (hn : db.news.find? (fun m => m.id == nid) = some n)
    (hp : db.posts.find? (fun q => q.id == pid) = some p)
    (ht : validEntityType t = true)
    (htt : title ≠ "") (hcc : content ≠ "") :
    ((newsLinkHandler db actor nid t eid).status = 403 ↔
      canMutateNews actor n = false) ∧
    ((newsUnlinkHandler db actor nid).status = 403 ↔
      canMutateNews actor n = false) ∧
    ((newsDeleteHandler db actor nid).status = 403 ↔
      canMutateNews actor n = false) ∧
    ((newsUpdateHandler db actor nid (some title) (some content) (some t)
        (some eid) img).status = 403 ↔ canMutateNews actor n = false) ∧
    ((postsLinkHandler db actor pid t eid).status = 403 ↔
      canMutatePost actor p = false) ∧
    ((postsUnlinkHandler db actor pid).status = 403 ↔
      canMutatePost actor p = false) ∧
    ((postsDeleteHandler db actor pid).status = 403 ↔
      canMutatePost actor p = false) ∧
    ((postsUpdateHandler db actor pid (some content) (some t)
        (some eid) img).status = 403 ↔ canMutatePost actor p = false) :=
  ⟨authz_newsLink hn, authz_newsUnlink hn, authz_newsDelete hn,
   authz_newsUpdate hn ht htt hcc, authz_postsLink hp, authz_postsUnlink hp,
   authz_postsDelete hp, authz_postsUpdate hp ht hcc⟩

/-- C1 witness: the amended statement applied at a concrete state — an
"aslab" non-creator is refused on a Post but allowed on a News item. -/
theorem claim1_authz_witness :
    (postsUpdateHandler
      (DB.mk [1] [] [] [⟨1, "t", "c", none, 1⟩] [⟨1, 1, "c", none⟩] [] [] 2 2)
      (Actor.mk 2 "aslab") 1 (some "x") (some "class") (some 1) none).status
      = 403 ∧
    ¬ (newsUpdateHandler
      (DB.mk [1] [] [] [⟨1, "t", "c", none, 1⟩] [⟨1, 1, "c", none⟩] [] [] 2 2)
      (Actor.mk 2 "aslab") 1 (some "x") (some "y") (some "class")
      (some 1) none).status = 403 := by
  have h := claim1_authz
    (DB.mk [1] [] [] [⟨1, "t", "c", none, 1⟩] [⟨1, 1, "c", none⟩] [] [] 2 2)
    (Actor.mk 2 "aslab") 1 1 1 "class" "x" "y" none ⟨1, "t", "c", none, 1⟩
    ⟨1, 1, "c", none⟩ rfl rfl (by decide) (by decide) (by decide)
  refine ⟨h.2.2.2.2.2.2.2.mpr (by decide), ?_⟩
  intro hc
  exact absurd (h.2.2.2.1.mp hc) (by decide)

/-- C3: creation of an owner record with an optional link target is atomic.
Whatever statement inside the transaction fails (`f1` the primary insert,
`f2` the link insert, `fc` the commit), the resulting state is either exactly
the pre-transaction state (rollback) or exactly the fully committed state
with both writes; no state with only one of the two writes is reachable. -/
theorem claim3_create_atomic (db : DB) (actor : Actor)
    (title content lt : Option String) (li : Option Nat) (img : Option String)
    (f1 f2 fc : Bool) (pcontent pet : Option String) (pei : Option Nat)
    (pimg : Option String) (g1 g2 gc : Bool) :
    ((newsCreateHandler db actor title content lt li img f1 f2 fc).db = db ∨
      newsCreateHandler db actor title content lt li img f1 f2 fc =
        ⟨201, newsCreateCommit db actor title content lt li img⟩) ∧
    ((postsCreateHandler db actor pcontent pet pei pimg g1 g2 gc).db = db ∨
      postsCreateHandler db actor pcontent pet pei pimg g1 g2 gc =
        ⟨201, postsCreateCommit db actor pcontent pet pei pimg⟩) := by
  constructor
  · unfold newsCreateHandler newsCreateCommit
    split
    · left; rfl
    split
    · left; rfl
    split
    · left; rfl
    split
    · left; rfl
    cases hg : (truthyS lt && li.isSome) with
    | true =>
      simp only [hg, ite_true]
      split
      · left; rfl
      split
      · left; rfl
      right; rfl
    | false =>
      simp only [hg, Bool.false_eq_true, ite_false]
      split
      · left; rfl
      right; rfl
  · unfold postsCreateHandler postsCreateCommit
    split
    · left; rfl
    split
    · left; rfl
    split
    · left; rfl
    split
    · left; rfl
    cases hg : (truthyS pet && pei.isSome) with
    | true =>
      simp only [hg, ite_true]
      split
      · left; rfl
      split
      · left; rfl
      right; rfl
    | false =>
      simp only [hg, Bool.false_eq_true, ite_false]
      split
      · left; rfl
      right; rfl

/-- C4: the link route's upsert is idempotent.  When the owner record exists,
the actor may mutate it, the kind is valid, the target exists and the state
has at most one link row for the owner, then linking succeeds with 200,
linking a second time with the same arguments returns the identical result
and state, and the owner's link rows are exactly the one row (kind, id). -/
theorem claim4_setLink_idempotent (db : DB) (actor : Actor) (id eid : Nat)
    (t : String) (n : NewsRow) (p : PostRow)
    (hn : db.news.find? (fun m => m.id == id) = some n)
    (hna : canMutateNews actor n = true)
    (hp : db.posts.find? (fun q => q.id == id) = some p)
    (hpa : canMutatePost actor p = true)
    (ht : validEntityType t = true)
    (he : entityExists db t eid = true)
    (hc1 : (db.newsEntities.filter (fun r => r.ownerId == id)).length ≤ 1)
    (hc2 : (db.postsEntities.filter (fun r => r.ownerId == id)).length ≤ 1) :
    ((newsLinkHandler db actor id t eid).status = 200 ∧
      newsLinkHandler (newsLinkHandler db actor id t eid).db actor id t eid =
        newsLinkHandler db actor id t eid ∧
      (newsLinkHandler db actor id t eid).db.newsEntities.filter
        (fun r => r.ownerId == id) = [⟨id, t, eid⟩]) ∧
    ((postsLinkHandler db actor id t eid).status = 200 ∧
      postsLinkHandler (postsLinkHandler db actor id t eid).db actor id t eid =
        postsLinkHandler db actor id t eid ∧
      (postsLinkHandler db actor id t eid).db.postsEntities.filter
        (fun r => r.ownerId == id) = [⟨id, t, eid⟩]) := by
  have hstep : newsLinkHandler db actor id t eid =
      ⟨200, { db with newsEntities := upsertLink db.newsEntities id t eid }⟩ := by
    unfold newsLinkHandler
    rw [hn]
    simp [hna, ht, he]
  have hnews2 :
      ({ db with newsEntities := upsertLink db.newsEntities id t eid } : DB).news
        = db.news := rfl
  have hee : entityExists
      { db with newsEntities := upsertLink db.newsEntities id t eid } t eid
        = entityExists db t eid := rfl
  have hstep2 : newsLinkHandler
      { db with newsEntities := upsertLink db.newsEntities id t eid }
      actor id t eid =
      ⟨200, { db with newsEntities := upsertLink (upsertLink db.newsEntities id t eid) id t eid }⟩ := by
    unfold newsLinkHandler
    rw [hnews2, hn]
    simp [hna, ht, hee, he]
  have pstep : postsLinkHandler db actor id t eid =
      ⟨200, { db with postsEntities := upsertLink db.postsEntities id t eid }⟩ := by
    unfold postsLinkHandler
    rw [hp]
    simp [hpa, ht, he]
  have hposts2 :
      ({ db with postsEntities := upsertLink db.postsEntities id t eid } : DB).posts
        = db.posts := rfl
  have hpe : entityExists
      { db with postsEntities := upsertLink db.postsEntities id t eid } t eid
        = entityExists db t eid := rfl
  have pstep2 : postsLinkHandler
      { db with postsEntities := upsertLink db.postsEntities id t eid }
      actor id t eid =
      ⟨200, { db with postsEntities := upsertLink (upsertLink db.postsEntities id t eid) id t eid }⟩ := by
    unfold postsLinkHandler
    rw [hposts2, hp]
    simp [hpa, ht, hpe, he]
  refine ⟨⟨by rw [hstep], ?_, ?_⟩, by rw [pstep], ?_, ?_⟩
  · rw [hstep]
    dsimp only
    rw [hstep2, upsertLink_idem]
  · rw [hstep]
    dsimp only
    exact filter_upsertLink hc1
  · rw [pstep]
    dsimp only
    rw [pstep2, upsertLink_idem]
  · rw [pstep]
    dsimp only
    exact filter_upsertLink hc2

theorem truthyS_none : truthyS none = false := rfl

/-- C5: an authorized update that supplies no link target deletes any
existing link row: after a 200 update with no target, the owner's link
lookup returns none, for News and for Posts. -/
theorem claim5_update_absent_clears (db : DB) (actor : Actor) (id : Nat)
    (title content img : Option String) (n : NewsRow) (p : PostRow)
    (lk pk : String × Nat)
    (htt : truthyS title = true) (hcc : truthyS content = true)
    (hn : db.news.find? (fun m => m.id == id) = some n)
    (hna : canMutateNews actor n = true)
    (hl : getLink db.newsEntities id = some lk)
    (hp : db.posts.find? (fun q => q.id == id) = some p)
    (hpa : canMutatePost actor p = true)
    (hpl : getLink db.postsEntities id = some pk) :
    ((newsUpdateHandler db actor id title content none none img).status = 200 ∧
      getLink (newsUpdateHandler db actor id title content none none
        img).db.newsEntities id = none) ∧
    ((postsUpdateHandler db actor id content none none img).status = 200 ∧
      getLink (postsUpdateHandler db actor id content none none
        img).db.postsEntities id = none) := by
  refine ⟨⟨?_, ?_⟩, ?_, ?_⟩
  · unfold newsUpdateHandler
    rw [hn]
    simp [htt, hcc, hna, truthyS_none]
  · unfold newsUpdateHandler
    rw [hn]
    simp [htt, hcc, hna, truthyS_none, getLink_dropLink]
  · unfold postsUpdateHandler
    rw [hp]
    simp [hcc, hpa, truthyS_none]
  · unfold postsUpdateHandler
    rw [hp]
    simp [hcc, hpa, truthyS_none, getLink_dropLink]

/-- C6: when the owner record exists and the actor is authorized but the
requested link target does not exist, both the link route and the update
route answer 404 and return the state completely unchanged (owner record
and any existing link row included). -/
theorem claim6_entity_not_found (db : DB) (actor : Actor) (id eid : Nat)
    (t title content : String) (img : Option String) (n : NewsRow)
    (hn : db.news.find? (fun m => m.id == id) = some n)
    (hna : canMutateNews actor n = true)
    (ht : validEntityType t = true)
    (hne : entityExists db t eid = false)
    (htt : title ≠ "") (hcc : content ≠ "") :
    newsLinkHandler db actor id t eid = ⟨404, db⟩ ∧
    newsUpdateHandler db actor id (some title) (some content) (some t)
      (some eid) img = ⟨404, db⟩ := by
  constructor
  · unfold newsLinkHandler
    rw [hn]
    simp [hna, ht, hne]
  · unfold newsUpdateHandler
    rw [hn]
    simp [truthyS, htt, hcc, hna, ht, hne, validEntityType_ne_empty ht]

/-- C7: the mutation routes check existence of the owner record before
ownership: a missing owner always yields 404 whatever the actor, and 403 is
returned only when the owner record exists and the mutation guard fails. -/
theorem claim7_notfound_precedence (db : DB) (actor : Actor) (id eid : Nat)
    (t : String) :
    (db.news.find? (fun m => m.id == id) = none →
      newsLinkHandler db actor id t eid = ⟨404, db⟩) ∧
    ((newsLinkHandler db actor id t eid).status = 403 →
      ∃ n, db.news.find? (fun m => m.id == id) = some n ∧
        canMutateNews actor n = false) ∧
    (db.posts.find? (fun q => q.id == id) = none →
      postsLinkHandler db actor id t eid = ⟨404, db⟩) ∧
    ((postsLinkHandler db actor id t eid).status = 403 →
      ∃ p, db.posts.find? (fun q => q.id == id) = some p ∧
        canMutatePost actor p = false) := by
  refine ⟨?_, ?_, ?_, ?_⟩
  · intro h
    unfold newsLinkHandler
    rw [h]
  · intro h
    cases hf : db.news.find? (fun m => m.id == id) with
    | none =>
      unfold newsLinkHandler at h
      rw [hf] at h
      simp at h
    | some n =>
      refine ⟨n, rfl, ?_⟩
      cases hx : canMutateNews actor n with
      | false => rfl
      | true =>
        exfalso
        apply absurd h
        unfold newsLinkHandler
        rw [hf]
        simp only [hx, Bool.not_true, Bool.false_eq_true, ite_false]
        split
        · simp
        split <;> simp
  · intro h
    unfold postsLinkHandler
    rw [h]
  · intro h
    cases hf : db.posts.find? (fun q => q.id == id) with
    | none =>
      unfold postsLinkHandler at h
      rw [hf] at h
      simp at h
    | some p =>
      refine ⟨p, rfl, ?_⟩
      cases hx : canMutatePost actor p with
      | false => rfl
      | true =>
        exfalso
        apply absurd h
        unfold postsLinkHandler
        rw [hf]
        simp only [hx, Bool.not_true, Bool.false_eq_true, ite_false]
        split
        · simp
        split <;> simp

/-- C8: deleting an owner record also removes its link row without any
explicit unlink: after a 200 delete, the owner's link lookup returns none
(the ON DELETE CASCADE of the link tables). -/
theorem claim8_delete_cascades (db : DB) (actor : Actor) (id : Nat)
    (n : NewsRow) (p : PostRow)
    (hn : db.news.find? (fun m => m.id == id) = some n)
    (hna : canMutateNews actor n = true)
    (hp : db.posts.find? (fun q => q.id == id) = some p)
    (hpa : canMutatePost actor p = true) :
    ((newsDeleteHandler db actor id).status = 200 ∧
      getLink (newsDeleteHandler db actor id).db.newsEntities id = none) ∧
    ((postsDeleteHandler db actor id).status = 200 ∧
      getLink (postsDeleteHandler db actor id).db.postsEntities id = none) := by
  refine ⟨⟨?_, ?_⟩, ?_, ?_⟩
  · unfold newsDeleteHandler
    rw [hn]
    simp [hna]
  · unfold newsDeleteHandler
    rw [hn]
    simp [hna, getLink_dropLink]
  · unfold postsDeleteHandler
    rw [hp]
    simp [hpa]
  · unfold postsDeleteHandler
    rw [hp]
    simp [hpa, getLink_dropLink]

/-- C9: the `GET /with-entity` route of the news router is dead code.  A
request for the path `with-entity` is dispatched to the earlier-registered
`GET /:id` route (index 1) with the parameter binding id = "with-entity",
and no path whatsoever dispatches to the `with-entity` route (index 3). -/
theorem claim9_with_entity_unreachable :
    firstMatch newsGetRoutes ["with-entity"] = some 1 ∧
    bindParams [Seg.param "id"] ["with-entity"] = [("id", "with-entity")] ∧
    ∀ path : List String, firstMatch newsGetRoutes path ≠ some 3 := by
  refine ⟨rfl, rfl, ?_⟩
  intro path h
  match path with
  | [] => simp [firstMatch, newsGetRoutes, patMatches] at h
  | [x] => simp [firstMatch, newsGetRoutes, patMatches, segMatches] at h
  | x :: y :: ys =>
    simp only [firstMatch, newsGetRoutes, patMatches, segMatches,
      Bool.true_and, Bool.and_false, Bool.false_eq_true, ite_false] at h
    split at h <;> simp at h

/-- C10: on update, a partially supplied target (a valid kind without an id,
or an id without a kind) behaves exactly like an absent target — the handler
result, state change and link deletion included, is identical to the call
with no target, for News and for Posts. -/
theorem claim10_partial_target_absent (db : DB) (actor : Actor) (id eid : Nat)
    (title content img : Option String) (t : String)
    (ht : validEntityType t = true) :
    newsUpdateHandler db actor id title content (some t) none img =
      newsUpdateHandler db actor id title content none none img ∧
    newsUpdateHandler db actor id title content none (some eid) img =
      newsUpdateHandler db actor id title content none none img ∧
    postsUpdateHandler db actor id content (some t) none img =
      postsUpdateHandler db actor id content none none img ∧
    postsUpdateHandler db actor id content none (some eid) img =
      postsUpdateHandler db actor id content none none img := by
  refine ⟨?_, rfl, ?_, rfl⟩
  · unfold newsUpdateHandler
    simp [ht, truthyS_none]
  · unfold postsUpdateHandler
    simp [ht, truthyS_none]

/-- C2 witness: the invariant instantiated at a concrete start state and a
concrete request sequence (a create with target followed by a re-link). -/
theorem claim2_witness :
    ((applyOps (initDB [1, 2] [] [])
      [Op.ncreate (Actor.mk 1 "aslab") (some "t") (some "c") (some "class")
        (some 1) none false false false,
       Op.nlink (Actor.mk 1 "aslab") 1 "class" 2]).newsEntities.filter
      (fun r => r.ownerId == 1)).length ≤ 1 :=
  (claim2_link_invariant [1, 2] [] []
    [Op.ncreate (Actor.mk 1 "aslab") (some "t") (some "c") (some "class")
      (some 1) none false false false,
     Op.nlink (Actor.mk 1 "aslab") 1 "class" 2] 1).1.1

/-- C4 witness: idempotent upsert at a concrete state — one news item and
one post (both by user 1), class 5 exists, no pre-existing links. -/
theorem claim4_witness :
    (newsLinkHandler
      (DB.mk [5] [] [] [⟨1, "t", "c", none, 1⟩] [⟨1, 1, "c", none⟩] [] [] 2 2)
      (Actor.mk 1 "praktikan") 1 "class" 5).db.newsEntities.filter
      (fun r => r.ownerId == 1) = [⟨1, "class", 5⟩] ∧
    postsLinkHandler
      (postsLinkHandler
        (DB.mk [5] [] [] [⟨1, "t", "c", none, 1⟩] [⟨1, 1, "c", none⟩] [] [] 2 2)
        (Actor.mk 1 "praktikan") 1 "class" 5).db
      (Actor.mk 1 "praktikan") 1 "class" 5 =
      postsLinkHandler
        (DB.mk [5] [] [] [⟨1, "t", "c", none, 1⟩] [⟨1, 1, "c", none⟩] [] [] 2 2)
        (Actor.mk 1 "praktikan") 1 "class" 5 :=
  have h := claim4_setLink_idempotent
    (DB.mk [5] [] [] [⟨1, "t", "c", none, 1⟩] [⟨1, 1, "c", none⟩] [] [] 2 2)
    (Actor.mk 1 "praktikan") 1 5 "class" ⟨1, "t", "c", none, 1⟩
    ⟨1, 1, "c", none⟩ rfl (by decide) rfl (by decide) (by decide) (by decide)
    (by decide) (by decide)
  ⟨h.1.2.2, h.2.2.1⟩

/-- C5 witness: an update without a target clears a pre-existing link at a
concrete state where news 1 and post 1 are each linked to class 1. -/
theorem claim5_witness :
    getLink (newsUpdateHandler
      (DB.mk [1] [] [] [⟨1, "t", "c", none, 1⟩] [⟨1, 1, "c", none⟩]
        [⟨1, "class", 1⟩] [⟨1, "class", 1⟩] 2 2)
      (Actor.mk 1 "aslab") 1 (some "a") (some "b") none none
      none).db.newsEntities 1 = none ∧
    getLink (postsUpdateHandler
      (DB.mk [1] [] [] [⟨1, "t", "c", none, 1⟩] [⟨1, 1, "c", none⟩]
        [⟨1, "class", 1⟩] [⟨1, "class", 1⟩] 2 2)
      (Actor.mk 1 "aslab") 1 (some "b") none none
      none).db.postsEntities 1 = none :=
  have h := claim5_update_absent_clears
    (DB.mk [1] [] [] [⟨1, "t", "c", none, 1⟩] [⟨1, 1, "c", none⟩]
      [⟨1, "class", 1⟩] [⟨1, "class", 1⟩] 2 2)
    (Actor.mk 1 "aslab") 1 (some "a") (some "b") none ⟨1, "t", "c", none, 1⟩
    ⟨1, 1, "c", none⟩ ("class", 1) ("class", 1) (by decide) (by decide) rfl
    (by decide) rfl rfl (by decide) rfl
  ⟨h.1.2, h.2.2⟩

/-- C6 witness: linking news 1 to the nonexistent class 42 answers 404 and
leaves the state unchanged. -/
theorem claim6_witness :
    newsLinkHandler
      (DB.mk [] [] [] [⟨1, "t", "c", none, 1⟩] [] [] [] 2 1)
      (Actor.mk 1 "aslab") 1 "class" 42 =
      ⟨404, DB.mk [] [] [] [⟨1, "t", "c", none, 1⟩] [] [] [] 2 1⟩ :=
  (claim6_entity_not_found
    (DB.mk [] [] [] [⟨1, "t", "c", none, 1⟩] [] [] [] 2 1)
    (Actor.mk 1 "aslab") 1 42 "class" "x" "y" none ⟨1, "t", "c", none, 1⟩
    rfl (by decide) (by decide) (by decide) (by decide) (by decide)).1

/-- C7 witness: a nonexistent owner yields 404 for any actor, and a 403 on
an existing post exposes a failing mutation guard. -/
theorem claim7_witness :
    newsLinkHandler (DB.mk [] [] [] [] [] [] [] 1 1) (Actor.mk 1 "praktikan")
      1 "class" 1 = ⟨404, DB.mk [] [] [] [] [] [] [] 1 1⟩ ∧
    ∃ p, (DB.mk [] [] [] [] [⟨1, 1, "c", none⟩] [] [] 1 2).posts.find?
      (fun q => q.id == 1) = some p ∧
      canMutatePost (Actor.mk 2 "praktikan") p = false :=
  ⟨(claim7_notfound_precedence (DB.mk [] [] [] [] [] [] [] 1 1)
      (Actor.mk 1 "praktikan") 1 1 "class").1 rfl,
   (claim7_notfound_precedence (DB.mk [] [] [] [] [⟨1, 1, "c", none⟩] [] [] 1 2)
      (Actor.mk 2 "praktikan") 1 1 "class").2.2.2 (by decide)⟩

/-- C8 witness: deleting news 1 and post 1 (each linked to class 1) leaves
no link row for owner 1. -/
theorem claim8_witness :
    getLink (newsDeleteHandler
      (DB.mk [1] [] [] [⟨1, "t", "c", none, 1⟩] [⟨1, 1, "c", none⟩]
        [⟨1, "class", 1⟩] [⟨1, "class", 1⟩] 2 2)
      (Actor.mk 1 "aslab") 1).db.newsEntities 1 = none ∧
    getLink (postsDeleteHandler
      (DB.mk [1] [] [] [⟨1, "t", "c", none, 1⟩] [⟨1, 1, "c", none⟩]
        [⟨1, "class", 1⟩] [⟨1, "class", 1⟩] 2 2)
      (Actor.mk 1 "aslab") 1).db.postsEntities 1 = none :=
  have h := claim8_delete_cascades
    (DB.mk [1] [] [] [⟨1, "t", "c", none, 1⟩] [⟨1, 1, "c", none⟩]
      [⟨1, "class", 1⟩] [⟨1, "class", 1⟩] 2 2)
    (Actor.mk 1 "aslab") 1 ⟨1, "t", "c", none, 1⟩ ⟨1, 1, "c", none⟩
    rfl (by decide) rfl (by decide)
  ⟨h.1.2, h.2.2⟩

/-- C9 witness: no path at all reaches route index 3, here checked on a
concrete path. -/
theorem claim9_witness :
    firstMatch newsGetRoutes ["with-entity"] ≠ some 3 :=
  claim9_with_entity_unreachable.2.2 ["with-entity"]

/-- C10 witness: supplying only the kind "class" without an id behaves like
supplying no target, at a concrete state. -/
theorem claim10_witness :
    newsUpdateHandler
      (DB.mk [1] [] [] [⟨1, "t", "c", none, 1⟩] [] [⟨1, "class", 1⟩] [] 2 1)
      (Actor.mk 1 "aslab") 1 (some "a") (some "b") (some "class") none none =
    newsUpdateHandler
      (DB.mk [1] [] [] [⟨1, "t", "c", none, 1⟩] [] [⟨1, "class", 1⟩] [] 2 1)
      (Actor.mk 1 "aslab") 1 (some "a") (some "b") none none none :=
  (claim10_partial_target_absent
    (DB.mk [1] [] [] [⟨1, "t", "c", none, 1⟩] [] [⟨1, "class", 1⟩] [] 2 1)
    (Actor.mk 1 "aslab") 1 0 (some "a") (some "b") none "class"
    (by decide)).1

end Digilearn

